import Mathlib

/-!
Verification of the flashing-orchestration engine of `fastboot.cpp` against its
design specification.  The C++ source is shallowly embedded: pure computations
become Lean functions, device queries (`GetVar`-backed helpers) become explicit
parameters holding the value the query would produce, the mutable globals become
explicit state arguments, and every `die`/`exit` path is an `Option.none` result.
C++ `std::string` values that undergo character arithmetic (slot names) are
modelled as lists of unsigned byte values; strings that are only compared for
equality (partition and image names) are modelled as Lean `String`s.
-/

set_option maxHeartbeats 1000000
set_option maxRecDepth 4000

namespace Fastboot

/-! ## Slot resolution (fastboot.cpp lines 1298-1377) -/

/-- Reading `s[0]` of a C++ `std::string`; on an empty string `operator[]`
yields the null character, hence the default `0`. -/
def headByte (s : List Nat) : Nat := s.headD 0

/-- Storing a C++ `int` arithmetic result into a `char`: the stored byte is the
value reduced mod 256 (two's-complement truncation). -/
def toByte (i : Int) : Nat := (i % 256).toNat

/-- Embeds `get_other_slot(const std::string& current_slot, int count)`
(fastboot.cpp:1320-1325): if `count == 0` return `""`; otherwise return the
one-character string `(current_slot[0] - 'a' + 1) % count + 'a'`.  C++ `%` on
`int` truncates toward zero, hence `Int.tmod`. -/
def get_other_slot (current_slot : List Nat) (count : Int) : List Nat :=
  if count = 0 then []
  else [toByte (((headByte current_slot : Int) - 97 + 1).tmod count + 97)]

/-- The byte string `"all"`. -/
def strAll : List Nat := [97, 108, 108]

/-- The byte string `"other"`. -/
def strOther : List Nat := [111, 116, 104, 101, 114]

/-- The byte string `"a"`. -/
def strA : List Nat := [97]

/-- Embeds `verify_slot(const std::string& slot_name, bool allow_all)`
(fastboot.cpp:1339-1373).  The device-reported slot count (`get_slot_count`)
and current slot (`get_current_slot`, consumed by the `"other"` branch) are
parameters; `none` stands for the process-terminating `die`/`exit(1)` paths. -/
def verify_slot (slot_name : List Nat) (allow_all : Bool) (count : Int)
    (current_slot : List Nat) : Option (List Nat) :=
  if slot_name = strAll then
    if allow_all then some strAll
    else if count > 0 then some strA
    else none
  else if count = 0 then none
  else if slot_name = strOther then
    let other := get_other_slot current_slot count
    if other = [] then none else some other
  else if slot_name.length = 1 ∧ 0 ≤ (headByte slot_name : Int) - 97 ∧
      (headByte slot_name : Int) - 97 < count then
    some slot_name
  else none

/-! ## Sparse-limit computation (fastboot.cpp lines 99-103, 1027-1050) -/

/-- `RESPARSE_LIMIT` (fastboot.cpp:102): 1 GiB cap on resparse chunk size. -/
def RESPARSE_LIMIT : Int := 1 * 1024 * 1024 * 1024

/-- Reinterpretation of a C++ `uint64_t` value as `int64_t` (two's complement). -/
def toInt64 (v : Nat) : Int :=
  let m : Nat := v % 2 ^ 64
  if m < 2 ^ 63 then (m : Int) else (m : Int) - 2 ^ 64

/-- Embeds `get_sparse_limit(int64_t size, const FlashingPlan* fp)`
(fastboot.cpp:1027-1050).  `sparse_limit` is the plan's `uint64_t sparse_limit`
field, `hasCapturer` is `has_flash_capturer()`, `devMax` is the `uint64_t`
value the device query `get_uint_var("max-download-size", fp->fb)` would yield
(that helper returns 0 when the variable is missing or unparsable), and `tsl`
is the mutable global cache `target_sparse_limit` (initially `-1`).  The result
pairs the returned limit with the updated cache; `none` is the `die` path. -/
def get_sparse_limit (size : Int) (sparse_limit : Nat) (hasCapturer : Bool)
    (devMax : Nat) (tsl : Int) : Option (Int × Int) :=
  let limit := toInt64 sparse_limit
  if limit = 0 then
    if hasCapturer then none
    else
      let tsl' := if tsl = -1 then toInt64 devMax else tsl
      if tsl' > 0 then
        some (if size > tsl' then min tsl' RESPARSE_LIMIT else 0, tsl')
      else
        some (0, tsl')
  else
    some (if size > limit then min limit RESPARSE_LIMIT else 0, tsl)

/-! ## Claim theorems for slot resolution and sparse limits -/

/-- C10: for every current-slot string, `get_other_slot(current, 0)` returns
the empty string rather than failing, per the early `count == 0` return. -/
theorem get_other_slot_count_zero (current_slot : List Nat) :
    get_other_slot current_slot 0 = [] := rfl

/-- C6: for every slot count `N ≥ 2` whose slot letters are representable as
bytes (`'a' + N ≤ 256`, presupposed by the claim's letter range `['a'..'a'+N)`)
and current slot index `c < N`, one application of `get_other_slot` yields the
cyclic successor letter, and two applications return to the start iff `N = 2`. -/
theorem get_other_slot_cycles (N : Int) (c : Nat) (h2 : 2 ≤ N)
    (hrep : 97 + N ≤ 256) (hc : (c : Int) < N) :
    get_other_slot [97 + c] N = [97 + (((c : Int) + 1) % N).toNat] ∧
    (get_other_slot (get_other_slot [97 + c] N) N = [97 + c] ↔ N = 2) := by
  have hN0 : N ≠ 0 := by omega
  have hNpos : (0 : Int) < N := by omega
  have hd1 : (0 : Int) ≤ ((c : Int) + 1) % N := Int.emod_nonneg _ hN0
  have hd1' : ((c : Int) + 1) % N < N := Int.emod_lt_of_pos _ hNpos
  have step1 : get_other_slot [97 + c] N = [97 + (((c : Int) + 1) % N).toNat] := by
    unfold get_other_slot headByte toByte
    rw [if_neg hN0]
    simp only [List.headD_cons]
    have harith : (((97 + c : Nat) : Int)) - 97 + 1 = (c : Int) + 1 := by
      push_cast
      ring
    rw [harith, Int.tmod_eq_emod (by omega) (by omega)]
    rw [Int.emod_eq_of_lt (by omega) (by omega : ((c : Int) + 1) % N + 97 < 256)]
    congr 1
    omega
  refine ⟨step1, ?_⟩
  rw [step1]
  have hd2 : (0 : Int) ≤ (((c : Int) + 1) % N + 1) % N := Int.emod_nonneg _ hN0
  have hd2' : (((c : Int) + 1) % N + 1) % N < N := Int.emod_lt_of_pos _ hNpos
  have step2 : get_other_slot [97 + (((c : Int) + 1) % N).toNat] N
      = [97 + ((((c : Int) + 1) % N + 1) % N).toNat] := by
    unfold get_other_slot headByte toByte
    rw [if_neg hN0]
    simp only [List.headD_cons]
    have harith2 : (((97 + (((c : Int) + 1) % N).toNat : Nat) : Int)) - 97 + 1
        = ((c : Int) + 1) % N + 1 := by
      push_cast [Int.toNat_of_nonneg hd1]
      ring
    rw [harith2, Int.tmod_eq_emod (by omega) (by omega)]
    rw [Int.emod_eq_of_lt (by omega)
      (by omega : (((c : Int) + 1) % N + 1) % N + 97 < 256)]
    congr 1
    omega
  rw [step2]
  have hfirst : ((c : Int) + 1) % N = (c : Int) + 1 ∨
      (((c : Int) + 1) % N = 0 ∧ N = (c : Int) + 1) := by
    rcases lt_or_eq_of_le (show (c : Int) + 1 ≤ N by omega) with hlt | heq
    · exact Or.inl (Int.emod_eq_of_lt (by omega) hlt)
    · refine Or.inr ⟨?_, heq.symm⟩
      rw [heq, Int.emod_self]
  have hsecond : ((((c : Int) + 1) % N + 1) % N = (c : Int) + 2 ∧ (c : Int) + 2 < N) ∨
      ((((c : Int) + 1) % N + 1) % N = 0 ∧ N = (c : Int) + 2) ∨
      ((((c : Int) + 1) % N + 1) % N = 1 ∧ N = (c : Int) + 1) := by
    rcases hfirst with hd | ⟨hd, hN⟩
    · rw [hd]
      rcases lt_or_eq_of_le (show (c : Int) + 2 ≤ N by omega) with hlt | heq
      · exact Or.inl ⟨Int.emod_eq_of_lt (by omega) hlt, hlt⟩
      · refine Or.inr (Or.inl ⟨?_, heq.symm⟩)
        rw [show (c : Int) + 1 + 1 = N by omega, Int.emod_self]
    · rw [hd]
      refine Or.inr (Or.inr ⟨?_, hN⟩)
      exact Int.emod_eq_of_lt (by omega) (by omega)
  have hlist : [97 + ((((c : Int) + 1) % N + 1) % N).toNat] = [97 + c] ↔
      97 + ((((c : Int) + 1) % N + 1) % N).toNat = 97 + c := by
    constructor
    · intro h
      exact List.head_eq_of_cons_eq h
    · intro h
      rw [h]
  rw [hlist]
  rcases hsecond with ⟨hv, hb⟩ | ⟨hv, hb⟩ | ⟨hv, hb⟩ <;> rw [hv] <;>
    constructor <;> intro h <;> omega

/-- C6 witness: the theorem instantiated at slot count 3, current slot `'c'`. -/
theorem get_other_slot_cycles_witness :
    get_other_slot [97 + 2] 3 = [97 + (((2 : Int) + 1) % 3).toNat] ∧
    (get_other_slot (get_other_slot [97 + 2] 3) 3 = [97 + 2] ↔ (3 : Int) = 2) :=
  get_other_slot_cycles 3 2 (by decide) (by decide) (by decide)

/-- C5: `verify_slot("all", allow_all=true)` returns `"all"` unmodified;
`verify_slot("all", allow_all=false)` on a device reporting at least one slot
returns `"a"`; `verify_slot` of a single letter outside `['a', 'a'+count)`
fails (the process-terminating `exit(1)`/`die` path, modelled as `none`; the
function reads but never writes any state). -/
theorem verify_slot_spec (count : Int) (current_slot : List Nat) (b : Nat)
    (al : Bool) :
    verify_slot strAll true count current_slot = some strAll ∧
    (1 ≤ count → verify_slot strAll false count current_slot = some strA) ∧
    ((b : Int) < 97 ∨ 97 + count ≤ (b : Int) →
      verify_slot [b] al count current_slot = none) := by
  refine ⟨?_, ?_, ?_⟩
  · simp [verify_slot]
  · intro h
    simp [verify_slot, show count > 0 by omega]
  · intro h
    have hne1 : ([b] : List Nat) ≠ strAll := by simp [strAll]
    have hne2 : ([b] : List Nat) ≠ strOther := by simp [strOther]
    have hcond : ¬([b].length = 1 ∧ 0 ≤ (headByte [b] : Int) - 97 ∧
        (headByte [b] : Int) - 97 < count) := by
      simp only [headByte, List.headD_cons, List.length_cons, List.length_nil]
      rintro ⟨-, h2, h3⟩
      omega
    unfold verify_slot
    rw [if_neg hne1]
    by_cases hc0 : count = 0
    · rw [if_pos hc0]
    · rw [if_neg hc0, if_neg hne2, if_neg hcond]

/-- C5 witness: count 2 (slots `a`, `b`), out-of-range letter `'c'`. -/
theorem verify_slot_spec_witness :
    verify_slot strAll true 2 [] = some strAll ∧
    verify_slot strAll false 2 [] = some strA ∧
    verify_slot [99] false 2 [] = none := by
  have h := verify_slot_spec 2 [] 99 false
  exact ⟨h.1, h.2.1 (by decide), h.2.2 (by decide)⟩

/-- C3: `get_sparse_limit` uses the plan's explicit limit when one is set
(no device query, and a fitting image yields 0); otherwise the device's
max-download-size is queried once and cached in `target_sparse_limit`
(subsequent calls ignore the device); any returned limit is capped at the
fixed 1 GiB `RESPARSE_LIMIT`; and a fitting image always yields 0. -/
theorem get_sparse_limit_spec (size : Int) (sparse_limit devMax : Nat)
    (tsl : Int) :
    (toInt64 sparse_limit ≠ 0 →
      (∀ d2 : Nat, get_sparse_limit size sparse_limit false devMax tsl
          = get_sparse_limit size sparse_limit false d2 tsl) ∧
      (size ≤ toInt64 sparse_limit →
        get_sparse_limit size sparse_limit false devMax tsl = some (0, tsl))) ∧
    (toInt64 sparse_limit = 0 → tsl = -1 →
      (get_sparse_limit size sparse_limit false devMax tsl).map Prod.snd
        = some (toInt64 devMax)) ∧
    (toInt64 sparse_limit = 0 → tsl ≠ -1 →
      ∀ d2 : Nat, get_sparse_limit size sparse_limit false devMax tsl
          = get_sparse_limit size sparse_limit false d2 tsl) ∧
    (∀ r st, get_sparse_limit size sparse_limit false devMax tsl = some (r, st) →
      r ≤ RESPARSE_LIMIT) ∧
    (toInt64 sparse_limit = 0 → tsl = -1 → 0 < toInt64 devMax →
      size ≤ toInt64 devMax →
      get_sparse_limit size sparse_limit false devMax tsl
        = some (0, toInt64 devMax)) := by
  refine ⟨fun h => ⟨fun d2 => ?_, fun hfit => ?_⟩, fun h ht => ?_, fun h ht d2 => ?_,
    fun r st hr => ?_, fun h ht hpos hfit => ?_⟩
  · unfold get_sparse_limit
    rw [if_neg h, if_neg h]
  · unfold get_sparse_limit
    rw [if_neg h, if_neg (by omega : ¬size > toInt64 sparse_limit)]
  · unfold get_sparse_limit
    rw [if_pos h, if_pos ht]
    by_cases hp : toInt64 devMax > 0
    · rw [if_pos hp]
      rfl
    · rw [if_neg hp]
      rfl
  · unfold get_sparse_limit
    rw [if_pos h, if_pos h, if_neg ht, if_neg ht]
  · have hR : RESPARSE_LIMIT = 1073741824 := rfl
    simp only [get_sparse_limit] at hr
    split_ifs at hr <;> simp only [Option.some.injEq, Prod.mk.injEq] at hr <;>
      omega
  · unfold get_sparse_limit
    rw [if_pos h, if_pos ht, if_pos hpos,
      if_neg (by omega : ¬size > toInt64 devMax)]
    rfl

/-- C3 witness: explicit plan limit 3 with a fitting image of size 2; then the
first cached device query on a fresh connection (cache `-1`). -/
theorem get_sparse_limit_spec_witness :
    get_sparse_limit 2 3 false 7 (-1) = some (0, -1) ∧
    (get_sparse_limit 5 0 false 4 (-1)).map Prod.snd = some (toInt64 4) := by
  refine ⟨?_, ?_⟩
  · exact ((get_sparse_limit_spec 2 3 7 (-1)).1 (by decide)).2 (by decide)
  · exact (get_sparse_limit_spec 5 0 4 (-1)).2.1 (by decide) rfl

/-! ## AVB footer relocation and vbmeta rewriting (fastboot.cpp lines 1107-1255) -/

/-- `AVB_FOOTER_SIZE` from the external AVB layout library (libavb): the
`AvbFooter` struct is 64 bytes. -/
def AVB_FOOTER_SIZE : Int := 64

/-- The footer magic bytes `"AVBf"`. -/
def AVB_FOOTER_MAGIC : List Nat := [65, 86, 66, 102]

/-- The vbmeta magic bytes `"AVB0"`. -/
def AVB_MAGIC : List Nat := [65, 86, 66, 48]

/-- `buf->file_type`: plain file descriptor or sparse image. -/
inductive FileType where
  | fd
  | sparse
deriving DecidableEq

/-- The fields of `struct fastboot_buffer` consumed by the footer/vbmeta code:
`data` holds the contents of the file behind `buf->fd`, `sz` the recorded
buffer size, `file_type` the sparse/plain discriminator. -/
structure FbBuffer where
  data : List Nat
  sz : Int
  file_type : FileType
deriving DecidableEq

/-- Models `data.compare(pos, len, magic) == 0` on a `std::string`: the bytes
of `data` starting at `pos` begin with `magic` (`false` also covers the
out-of-range `pos` cases, where the C++ call would throw). -/
def compareAt (data : List Nat) (pos : Int) (magic : List Nat) : Bool :=
  decide (0 ≤ pos) && decide ((data.drop pos.toNat).take magic.length = magic)

/-- Big-endian read of the 8-byte `vbmeta_offset` field of an `AvbFooter`
placed at `pos` in `data`; the field sits 20 bytes into the footer (after
`magic[4]`, `version_major`, `version_minor`, `original_image_size`). -/
def be64At (data : List Nat) (pos : Nat) : Nat :=
  ((data.drop pos).take 8).foldl (fun acc b => acc * 256 + b) 0

/-- Embeds `copy_avb_footer` (fastboot.cpp:1199-1255).  `isLogical` is the
device query `is_logical(partition)`, `inUserspace` is
`should_flash_in_userspace(source, partition)` (partition-metadata lookup,
implemented outside this file), and `partSize` is the `uint64_t` reported by
`get_partition_size(partition)` (0 when the device cannot report one; that
helper's own `die` requires `is_logical` to be true, which already returned
above).  Host-file I/O failures (`die` on an unreadable or unwritable
temporary) are outside the model, so the function is total. -/
def copy_avb_footer (isLogical inUserspace : Bool) (partSize : Nat)
    (buf : FbBuffer) : FbBuffer :=
  if buf.sz < AVB_FOOTER_SIZE ∨ isLogical = true ∨ inUserspace = true then buf
  else if buf.file_type = .sparse then buf
  else
    let partition_size : Int := toInt64 partSize
    if partition_size = buf.sz then buf
    else if partition_size < buf.sz then buf
    else
      let footer_offset : Int := buf.sz - AVB_FOOTER_SIZE
      if compareAt buf.data footer_offset AVB_FOOTER_MAGIC = false then buf
      else
        { data := (buf.data.take (partition_size - AVB_FOOTER_SIZE).toNat
              ++ List.replicate
                ((partition_size - AVB_FOOTER_SIZE).toNat - buf.data.length) 0)
              ++ buf.data.drop footer_offset.toNat,
          sz := partition_size,
          file_type := buf.file_type }

/-- Locating the vbmeta struct (fastboot.cpp:1119-1133): directly at offset 0,
or, for `vbmeta_in_boot`, via the `AvbFooter` at the end of the image whose
magic is checked first; `none` is the `die` path. -/
def vbmetaOffset (vbmeta_in_boot : Bool) (buf : FbBuffer) : Option Nat :=
  if vbmeta_in_boot then
    let footer_offset : Int := buf.sz - AVB_FOOTER_SIZE
    if compareAt buf.data footer_offset AVB_FOOTER_MAGIC then
      some (be64At buf.data (footer_offset.toNat + 20))
    else none
  else some 0

/-- Reading `data[i]` of the file contents. -/
def getByte (data : List Nat) (i : Nat) : Nat := data.getD i 0

/-- Embeds `rewrite_vbmeta_buffer(fastboot_buffer* buf, bool vbmeta_in_boot)`
(fastboot.cpp:1107-1157).  `dv`/`dvf` are the globals
`g_disable_verity`/`g_disable_verification`; `none` covers the `die` paths
(missing footer or vbmeta magic); host-file I/O failures are outside the
model.  On success the rewritten contents replace `buf->fd`; `buf->sz` and
`buf->file_type` are untouched. -/
def rewrite_vbmeta_buffer (dv dvf : Bool) (vbmeta_in_boot : Bool)
    (buf : FbBuffer) : Option FbBuffer :=
  if buf.sz < 256 then some buf
  else
    match vbmetaOffset vbmeta_in_boot buf with
    | none => none
    | some voff =>
      if compareAt buf.data (voff : Int) AVB_MAGIC then
        let flags_offset := 123 + voff
        let d1 :=
          if dv then buf.data.set flags_offset (getByte buf.data flags_offset ||| 1)
          else buf.data
        let d2 :=
          if dvf then d1.set flags_offset (getByte d1 flags_offset ||| 2)
          else d1
        some { buf with data := d2 }
      else none

/-! ## Claim theorems for footer and vbmeta handling -/

/-- C7: `copy_avb_footer` leaves the transfer buffer unchanged whenever the
image is sparse, the target partition is logical, or the partition must be
flashed in userspace by the higher-capability instance. -/
theorem copy_avb_footer_noop (isLogical inUserspace : Bool) (partSize : Nat)
    (buf : FbBuffer)
    (h : buf.file_type = .sparse ∨ isLogical = true ∨ inUserspace = true) :
    copy_avb_footer isLogical inUserspace partSize buf = buf := by
  unfold copy_avb_footer
  by_cases h1 : buf.sz < AVB_FOOTER_SIZE ∨ isLogical = true ∨ inUserspace = true
  · rw [if_pos h1]
  · have hs : buf.file_type = .sparse := by
      rcases h with hs | hl | hu
      · exact hs
      · exact absurd (Or.inr (Or.inl hl)) h1
      · exact absurd (Or.inr (Or.inr hu)) h1
    rw [if_neg h1, if_pos hs]

/-- C7 witness: a sparse buffer on a non-logical, bootloader-flashable
partition is returned unchanged. -/
theorem copy_avb_footer_noop_witness :
    copy_avb_footer false false 8192 ⟨[1, 2, 3], 3, .sparse⟩ = ⟨[1, 2, 3], 3, .sparse⟩ :=
  copy_avb_footer_noop false false 8192 ⟨[1, 2, 3], 3, .sparse⟩ (Or.inl rfl)

/-- Reading a byte of a list after `List.set` at the same (in-range) index. -/
theorem getByte_set_self (d : List Nat) (k v : Nat) (hk : k < d.length) :
    getByte (d.set k v) k = v := by
  unfold getByte
  rw [List.getD_eq_getElem?_getD, List.getElem?_set_self hk]
  rfl

/-- Reading a byte of a list after `List.set` at a different index. -/
theorem getByte_set_ne (d : List Nat) (k i v : Nat) (h : i ≠ k) :
    getByte (d.set k v) i = getByte d i := by
  unfold getByte
  rw [List.getD_eq_getElem?_getD, List.getD_eq_getElem?_getD,
    List.getElem?_set_ne (fun he => h he.symm)]

/-- C9: when the buffer is smaller than the 256-byte vbmeta struct,
`rewrite_vbmeta_buffer` returns immediately with the buffer unmodified and no
error, even when disabling was requested and no vbmeta magic is present. -/
theorem rewrite_vbmeta_buffer_small (dv dvf vb : Bool) (buf : FbBuffer)
    (h : buf.sz < 256) :
    rewrite_vbmeta_buffer dv dvf vb buf = some buf := by
  unfold rewrite_vbmeta_buffer
  rw [if_pos h]

/-- C9 witness: a 3-byte buffer with no vbmeta magic, both disables
requested, is passed through untouched. -/
theorem rewrite_vbmeta_buffer_small_witness :
    rewrite_vbmeta_buffer true true false ⟨[1, 2, 3], 3, .fd⟩
      = some ⟨[1, 2, 3], 3, .fd⟩ :=
  rewrite_vbmeta_buffer_small true true false ⟨[1, 2, 3], 3, .fd⟩ (by decide)

/-- C8: on a large-enough buffer whose located vbmeta offset carries the vbmeta
magic, `rewrite_vbmeta_buffer` succeeds, and re-reading the flag byte at
`vbmeta_offset + 123` shows the requested bits set (0x01 for disable-verity,
0x02 for disable-verification) while every other byte, the size and the file
type are unaltered. -/
theorem rewrite_vbmeta_buffer_roundtrip (dv dvf vb : Bool) (buf : FbBuffer)
    (voff : Nat) (h256 : ¬buf.sz < 256)
    (hoff : vbmetaOffset vb buf = some voff)
    (hmagic : compareAt buf.data (voff : Int) AVB_MAGIC = true)
    (hk : 123 + voff < buf.data.length) :
    ∃ out, rewrite_vbmeta_buffer dv dvf vb buf = some out ∧
      out.sz = buf.sz ∧ out.file_type = buf.file_type ∧
      out.data.length = buf.data.length ∧
      (dv = true → (getByte out.data (123 + voff)).testBit 0 = true) ∧
      (dvf = true → (getByte out.data (123 + voff)).testBit 1 = true) ∧
      (∀ i, i ≠ 123 + voff → getByte out.data i = getByte buf.data i) := by
  unfold rewrite_vbmeta_buffer
  rw [if_neg h256, hoff]
  simp only [hmagic, if_true]
  set k := 123 + voff with hkdef
  set d1 := if dv then buf.data.set k (getByte buf.data k ||| 1) else buf.data with hd1
  set d2 := if dvf then d1.set k (getByte d1 k ||| 2) else d1 with hd2
  refine ⟨_, rfl, rfl, rfl, ?_, ?_, ?_, ?_⟩
  · show d2.length = buf.data.length
    rw [hd2, hd1]
    cases dv <;> cases dvf <;> simp
  · intro hdv
    subst hdv
    show (getByte d2 k).testBit 0 = true
    have h1 : getByte d1 k = getByte buf.data k ||| 1 := by
      rw [hd1]
      simp only [if_true]
      exact getByte_set_self _ _ _ hk
    have hk1 : k < d1.length := by
      rw [hd1]
      simpa using hk
    cases dvf with
    | false =>
      simp only [hd2, Bool.false_eq_true, if_false]
      rw [h1]
      simp [Nat.testBit_lor]
    | true =>
      simp only [hd2, if_true]
      rw [getByte_set_self _ _ _ hk1, h1]
      simp [Nat.testBit_lor]
  · intro hdvf
    subst hdvf
    show (getByte d2 k).testBit 1 = true
    have hk1 : k < d1.length := by
      rw [hd1]
      cases dv <;> simpa using hk
    simp only [hd2, if_true]
    rw [getByte_set_self _ _ _ hk1]
    simp only [Nat.testBit_lor]
    rw [show Nat.testBit 2 1 = true from rfl, Bool.or_true]
  · intro i hi
    show getByte d2 i = getByte buf.data i
    have step2 : getByte d2 i = getByte d1 i := by
      rw [hd2]
      cases dvf
      · simp
      · simp only [if_true]
        exact getByte_set_ne _ _ _ _ hi
    have step1 : getByte d1 i = getByte buf.data i := by
      rw [hd1]
      cases dv
      · simp
      · simp only [if_true]
        exact getByte_set_ne _ _ _ _ hi
    rw [step2, step1]

/-- C8 witness: a 256-byte vbmeta image (magic at offset 0) with both disables
requested. -/
theorem rewrite_vbmeta_buffer_roundtrip_witness :
    ∃ out, rewrite_vbmeta_buffer true true false
        ⟨AVB_MAGIC ++ List.replicate 252 0, 256, .fd⟩ = some out ∧
      out.sz = (⟨AVB_MAGIC ++ List.replicate 252 0, 256, .fd⟩ : FbBuffer).sz ∧
      out.file_type = FileType.fd ∧
      out.data.length = (AVB_MAGIC ++ List.replicate 252 0).length ∧
      (true = true → (getByte out.data (123 + 0)).testBit 0 = true) ∧
      (true = true → (getByte out.data (123 + 0)).testBit 1 = true) ∧
      (∀ i, i ≠ 123 + 0 →
        getByte out.data i = getByte (AVB_MAGIC ++ List.replicate 252 0) i) := by
  obtain ⟨out, h1, h2, h3, h4, h5, h6, h7⟩ :=
    rewrite_vbmeta_buffer_roundtrip true true false
      ⟨AVB_MAGIC ++ List.replicate 252 0, 256, .fd⟩ 0 (by decide) rfl (by decide)
      (by decide)
  exact ⟨out, h1, h2, h3, h4, h5, h6, h7⟩

/-! ## Image catalog (fastboot.cpp lines 115-174) and task model -/

/-- `ImageType` of a catalog entry. -/
inductive ImageType where
  | BootCritical
  | Normal
  | Extra
deriving DecidableEq

/-- One entry of the static image catalog. -/
structure Image where
  nickname : String
  img_name : String
  sig_name : String
  part_name : String
  optional_if_no_image : Bool
  type : ImageType
deriving DecidableEq

/-- Modelled from the spec: `Image::IsSecondary` is declared in fastboot.h,
which is not among the given sources; per §4.1 the secondary/"other"-slot
variants are exactly the catalog entries with an empty nickname. -/
def Image.IsSecondary (im : Image) : Bool := im.nickname = ""

/-- The static image catalog (fastboot.cpp:115-174), in source order. -/
def images : List Image := [
  ⟨"boot", "boot.img", "boot.sig", "boot", false, .BootCritical⟩,
  ⟨"bootloader", "bootloader.img", "", "bootloader", true, .Extra⟩,
  ⟨"init_boot", "init_boot.img", "init_boot.sig", "init_boot", true, .BootCritical⟩,
  ⟨"", "boot_other.img", "boot.sig", "boot", true, .Normal⟩,
  ⟨"cache", "cache.img", "cache.sig", "cache", true, .Extra⟩,
  ⟨"dtbo", "dtbo.img", "dtbo.sig", "dtbo", true, .BootCritical⟩,
  ⟨"dts", "dt.img", "dt.sig", "dts", true, .BootCritical⟩,
  ⟨"odm", "odm.img", "odm.sig", "odm", true, .Normal⟩,
  ⟨"odm_dlkm", "odm_dlkm.img", "odm_dlkm.sig", "odm_dlkm", true, .Normal⟩,
  ⟨"product", "product.img", "product.sig", "product", true, .Normal⟩,
  ⟨"pvmfw", "pvmfw.img", "pvmfw.sig", "pvmfw", true, .BootCritical⟩,
  ⟨"radio", "radio.img", "", "radio", true, .Extra⟩,
  ⟨"recovery", "recovery.img", "recovery.sig", "recovery", true, .BootCritical⟩,
  ⟨"super", "super.img", "super.sig", "super", true, .Extra⟩,
  ⟨"system", "system.img", "system.sig", "system", false, .Normal⟩,
  ⟨"system_dlkm", "system_dlkm.img", "system_dlkm.sig", "system_dlkm", true, .Normal⟩,
  ⟨"system_ext", "system_ext.img", "system_ext.sig", "system_ext", true, .Normal⟩,
  ⟨"", "system_other.img", "system.sig", "system", true, .Normal⟩,
  ⟨"userdata", "userdata.img", "userdata.sig", "userdata", true, .Extra⟩,
  ⟨"vbmeta", "vbmeta.img", "vbmeta.sig", "vbmeta", true, .BootCritical⟩,
  ⟨"vbmeta_system", "vbmeta_system.img", "vbmeta_system.sig", "vbmeta_system",
    true, .BootCritical⟩,
  ⟨"vbmeta_vendor", "vbmeta_vendor.img", "vbmeta_vendor.sig", "vbmeta_vendor",
    true, .BootCritical⟩,
  ⟨"vendor", "vendor.img", "vendor.sig", "vendor", true, .Normal⟩,
  ⟨"vendor_boot", "vendor_boot.img", "vendor_boot.sig", "vendor_boot", true,
    .BootCritical⟩,
  ⟨"vendor_dlkm", "vendor_dlkm.img", "vendor_dlkm.sig", "vendor_dlkm", true,
    .Normal⟩,
  ⟨"vendor_kernel_boot", "vendor_kernel_boot.img", "vendor_kernel_boot.sig",
    "vendor_kernel_boot", true, .BootCritical⟩,
  ⟨"", "vendor_other.img", "vendor.sig", "vendor", true, .Normal⟩]

/-- The task variants relevant to graph construction.  A flash task records
the slot, partition, image name and `apply_vbmeta` flag of its C++
counterpart; `srcType` additionally records the catalog type of the image the
task was created from (`none` for script-created flash tasks) so that
type-based ordering properties can be stated — the C++ task identifies its
image by name only. -/
inductive Task where
  | flash (slot part img : String) (applyVbmeta : Bool) (srcType : Option ImageType)
  | updateSuper
  | optimizedFlashSuper
  | resize (part size slot : String)
  | reboot (target : Option String)
  | wipe (part : String)
deriving DecidableEq

/-- Models `android::base::EndsWith` (libbase) on the character lists of the
two strings; written out structurally so that it evaluates by reduction. -/
def strEndsWith (s suffix : String) : Bool :=
  suffix.toList.isSuffixOf s.toList

/-- Embeds `is_vbmeta_partition` (fastboot.cpp:1166-1170). -/
def is_vbmeta_partition (partition : String) : Bool :=
  strEndsWith partition "vbmeta" || strEndsWith partition "vbmeta_a" ||
    strEndsWith partition "vbmeta_b"

/-- Embeds `FlashAllTool::CollectImages` (fastboot.cpp:1935-1950), producing
the `boot_images_` and `os_images_` lists of (image, slot) pairs; the loop
over the catalog is split into one filter per output vector. -/
def collectImages (slot_override secondary_slot : String)
    (skip_secondary : Bool) : List (Image × String) × List (Image × String) :=
  (images.filterMap fun im =>
    if im.IsSecondary ∧ skip_secondary then none
    else if im.type = .BootCritical then
      some (im, if im.IsSecondary then secondary_slot else slot_override)
    else none,
   images.filterMap fun im =>
    if im.IsSecondary ∧ skip_secondary then none
    else if im.type = .Normal then
      some (im, if im.IsSecondary then secondary_slot else slot_override)
    else none)

/-- Embeds `FlashAllTool::AddFlashTasks` (fastboot.cpp:1989-2003).
`present im` tells whether the image's file opens and loads
(`OpenFile`/`load_buf_fd` both succeeding); a missing non-optional image is
the `die` path. -/
def addFlashTasks (present : Image → Bool) :
    List (Image × String) → Option (List Task)
  | [] => some []
  | (im, slot) :: rest =>
    if present im then
      (addFlashTasks present rest).map
        (Task.flash slot im.part_name im.img_name
          (is_vbmeta_partition im.part_name) (some im.type) :: ·)
    else if im.optional_if_no_image then addFlashTasks present rest
    else none

/-- Whether a task is a flash task of a dynamic (logical) partition.
`FlashTask::IsDynamicPartition` lives in task.cpp, which is not among the
given sources; it is modelled from the spec (§4.6) as an abstract predicate
`isDyn` on the flash task's partition and slot. -/
def isDynamicFlash (isDyn : String → String → Bool) : Task → Bool
  | .flash slot part _ _ _ => isDyn part slot
  | _ => false

/-- Embeds `AddResizeTasks` (fastboot.cpp:1686-1718).  `superEmptyOk` is the
success of reading `super_empty.img` and parsing its metadata; on every
`return false` path the task list is left unchanged (the caller only logs a
warning). -/
def addResizeTasks (superEmptyOk : Bool) (isDyn : String → String → Bool)
    (slot_override : String) (tasks : List Task) : List Task :=
  if superEmptyOk = false then tasks
  else
    let resize_tasks := tasks.filterMap fun t =>
      match t with
      | .flash slot part _ _ _ =>
        if isDyn part slot then some (Task.resize part "0" slot_override)
        else none
      | _ => none
    match tasks.findIdx? (isDynamicFlash isDyn) with
    | none => tasks
    | some loc => tasks.take loc ++ resize_tasks ++ tasks.drop loc

/-- Modelled from the spec: `OptimizedFlashSuperTask::Initialize` lives in
task.cpp, which is not among the given sources.  Per §4.3 the graph
postprocessing either appends a single `OptimizedFlashSuper` task (when the
optimization applies, abstracted as the `succeeds` parameter) or falls back
to `AddResizeTasks`. -/
def optimizedFlashSuperInit (succeeds : Bool) : Option Task :=
  if succeeds then some Task.optimizedFlashSuper else none

/-- The shared graph postprocessing closing `CollectTasksFromImageList`
(fastboot.cpp:1964-1972) and `ParseFastbootInfo` (fastboot.cpp:1784-1790). -/
def postprocessTasks (optSucceeds superEmptyOk : Bool)
    (isDyn : String → String → Bool) (slot_override : String)
    (tasks : List Task) : List Task :=
  match optimizedFlashSuperInit optSucceeds with
  | some t => tasks ++ [t]
  | none => addResizeTasks superEmptyOk isDyn slot_override tasks

/-- Embeds `FlashAllTool::CollectTasksFromImageList` (fastboot.cpp:1952-1975):
boot-critical flash tasks, then `UpdateSuper`, then the OS flash tasks, then
the super-optimization / resize postprocessing. -/
def collectTasksFromImageList (slot_override secondary_slot : String)
    (skip_secondary : Bool) (present : Image → Bool)
    (optSucceeds superEmptyOk : Bool) (isDyn : String → String → Bool) :
    Option (List Task) :=
  match addFlashTasks present
      (collectImages slot_override secondary_slot skip_secondary).1 with
  | none => none
  | some boot_tasks =>
    match addFlashTasks present
        (collectImages slot_override secondary_slot skip_secondary).2 with
    | none => none
    | some os_tasks =>
      some (postprocessTasks optSucceeds superEmptyOk isDyn slot_override
        (boot_tasks ++ [Task.updateSuper] ++ os_tasks))

/-! ## Fastboot-info script interpreter (fastboot.cpp lines 94, 1610-1793) -/

/-- `FASTBOOT_INFO_VERSION` (fastboot.cpp:94). -/
def FASTBOOT_INFO_VERSION : Nat := 1

/-- Splitting a character list at every occurrence of `delim`, keeping empty
parts (the behavior of `android::base::Split` for a one-character
delimiter). -/
def splitChars (delim : Char) : List Char → List (List Char)
  | [] => [[]]
  | x :: xs =>
    match splitChars delim xs with
    | [] => [[x]]
    | y :: ys => if x = delim then [] :: y :: ys else (x :: y) :: ys

/-- Models `android::base::Tokenize(text, " ")` (libbase): split on spaces,
dropping empty tokens. -/
def tokenize (text : String) : List String :=
  ((splitChars ' ' text.toList).map (fun cs => (⟨cs⟩ : String))).filter
    (fun t => t ≠ "")

/-- Models `android::base::Split(contents, "\x5cn")` (libbase): split on
newlines, keeping empty parts. -/
def splitLines (contents : String) : List String :=
  (splitChars '\n' contents.toList).map (fun cs => (⟨cs⟩ : String))

/-- Embeds `IsIgnore` (fastboot.cpp:1720-1725): empty command or a `#`
comment; reading `c[0]` of an empty `std::string` yields the null
character. -/
def isIgnore (command : List String) : Bool :=
  match command with
  | [] => true
  | c :: _ => c.toList.headD (Char.ofNat 0) = '#'

/-- Modelled from the spec: `android::base::ParseUint<uint32_t>` (libbase) is
not among the given sources; §6 specifies the directive as `version <uint>`.
Accepts a nonempty decimal digit string whose value fits `uint32_t`. -/
def parseUint32 (s : String) : Option Nat :=
  let cs := s.toList
  if cs ≠ [] ∧ cs.all (fun ch => ch.isDigit) then
    let v := cs.foldl (fun acc ch => acc * 10 + (ch.toNat - 48)) 0
    if v < 2 ^ 32 then some v else none
  else none

/-- Embeds `CheckFastbootInfoRequirements` (fastboot.cpp:1727-1755). -/
def checkFastbootInfoRequirements (command : List String)
    (host_tool_version : Nat) : Bool :=
  match command with
  | [cmd, ver] =>
    if cmd ≠ "version" then false
    else
      match parseUint32 ver with
      | none => false
      | some v => v ≤ host_tool_version
  | _ => false

/-- The argument loop of `ParseFlashCommand` (fastboot.cpp:1616-1630),
accumulating `apply_vbmeta`, `slot`, `partition` and `img_name`. -/
def parseFlashArgs (secondary_slot : String) :
    List String → Bool → String → String → String →
    Option (Bool × String × String × String)
  | [], av, slot, part, img => some (av, slot, part, img)
  | p :: rest, av, slot, part, img =>
    if p = "--apply-vbmeta" then
      parseFlashArgs secondary_slot rest true slot part img
    else if p = "--slot-other" then
      parseFlashArgs secondary_slot rest av secondary_slot part img
    else if part = "" then parseFlashArgs secondary_slot rest av slot p img
    else if img = "" then parseFlashArgs secondary_slot rest av slot part p
    else none

/-- Embeds `ParseFlashCommand` (fastboot.cpp:1610-1640). -/
def parseFlashCommand (slot_override secondary_slot : String)
    (parts : List String) : Option Task :=
  match parseFlashArgs secondary_slot parts false slot_override "" "" with
  | none => none
  | some (av, slot, part, img) =>
    if part = "" then none
    else
      let img_name := if img = "" then part ++ ".img" else img
      some (.flash slot part img_name av none)

/-- Embeds `ParseRebootCommand` (fastboot.cpp:1642-1651). -/
def parseRebootCommand : List String → Option Task
  | [] => some (.reboot none)
  | [t] => some (.reboot (some t))
  | _ => none

/-- Embeds `ParseWipeCommand` (fastboot.cpp:1653-1661). -/
def parseWipeCommand : List String → Option Task
  | [p] => some (.wipe p)
  | _ => none

/-- Embeds `ParseFastbootInfoLine` (fastboot.cpp:1663-1684); `none` is the
"unknown command" outcome. -/
def parseFastbootInfoLine (slot_override secondary_slot : String)
    (command : List String) : Option Task :=
  match command with
  | [] => none
  | c :: rest =>
    if c = "flash" then parseFlashCommand slot_override secondary_slot rest
    else if c = "reboot" then parseRebootCommand rest
    else if c = "update-super" ∧ rest = [] then some .updateSuper
    else if c = "erase" ∧ rest.length = 1 then parseWipeCommand rest
    else none

/-- The decision the `ParseFastbootInfo` loop body (fastboot.cpp:1761-1782)
takes for one line: `none` aborts the whole parse (returning the empty task
vector), `some none` skips the line, `some (some t)` appends task `t`.  The
body is stateless, so the decision depends only on the line itself. -/
def lineVerdict (wants_wipe : Bool) (slot_override secondary_slot : String)
    (text : String) : Option (Option Task) :=
  let command := tokenize text
  if isIgnore command then some none
  else if 1 < command.length ∧ command.headD "" = "version" then
    if checkFastbootInfoRequirements command FASTBOOT_INFO_VERSION then some none
    else none
  else if 2 ≤ command.length ∧ command.headD "" = "if-wipe" then
    if wants_wipe = false then some none
    else
      match parseFastbootInfoLine slot_override secondary_slot (command.drop 1) with
      | none => none
      | some t => some (some t)
  else
    match parseFastbootInfoLine slot_override secondary_slot command with
    | none => none
    | some t => some (some t)

/-- The per-line loop of `ParseFastbootInfo` (fastboot.cpp:1761-1782);
`none` is the aborting `return {}`. -/
def parseFastbootInfoLoop (wants_wipe : Bool) (sov ss : String) :
    List String → Option (List Task)
  | [] => some []
  | text :: rest =>
    match lineVerdict wants_wipe sov ss text with
    | none => none
    | some none => parseFastbootInfoLoop wants_wipe sov ss rest
    | some (some t) => (parseFastbootInfoLoop wants_wipe sov ss rest).map (t :: ·)

/-- Embeds `ParseFastbootInfo` (fastboot.cpp:1757-1793): the per-line loop
followed by the super-optimization / resize postprocessing; an aborted loop
returns the empty task vector before any postprocessing. -/
def parseFastbootInfo (wants_wipe : Bool) (sov ss : String)
    (optSucceeds superEmptyOk : Bool) (isDyn : String → String → Bool)
    (file : List String) : List Task :=
  match parseFastbootInfoLoop wants_wipe sov ss file with
  | none => []
  | some tasks => postprocessTasks optSucceeds superEmptyOk isDyn sov tasks

/-! ## Claim theorems for task-graph construction -/

/-- Rank of a task in the catalog-strategy ordering: 0 for a flash task of a
BootCritical image, 1 for `UpdateSuper`, 2 for a flash task of a Normal image;
all other tasks are unranked. -/
def rank : Task → Option Nat
  | .flash _ _ _ _ (some .BootCritical) => some 0
  | .updateSuper => some 1
  | .flash _ _ _ _ (some .Normal) => some 2
  | _ => none

/-- Two tasks appear in nondecreasing rank order (vacuous when either is
unranked). -/
def RankLE (a b : Task) : Prop :=
  ∀ x y, rank a = some x → rank b = some y → x ≤ y

/-- A list is pairwise related when every two members are. -/
theorem pairwise_of_mem_rel {α : Type} {R : α → α → Prop} :
    ∀ l : List α, (∀ a ∈ l, ∀ b ∈ l, R a b) → List.Pairwise R l
  | [], _ => List.Pairwise.nil
  | a :: l, h =>
    List.Pairwise.cons
      (fun b hb => h a (List.mem_cons_self a l) b (List.mem_cons_of_mem a hb))
      (pairwise_of_mem_rel l fun x hx y hy =>
        h x (List.mem_cons_of_mem a hx) y (List.mem_cons_of_mem a hy))

/-- Inserting unranked tasks anywhere preserves the rank ordering. -/
theorem pairwise_rankle_insert (A M C : List Task)
    (h : List.Pairwise RankLE (A ++ C))
    (hM : ∀ m ∈ M, rank m = none) :
    List.Pairwise RankLE (A ++ M ++ C) := by
  rw [List.pairwise_append] at h
  obtain ⟨hA, hC, hAC⟩ := h
  rw [List.append_assoc, List.pairwise_append]
  refine ⟨hA, ?_, ?_⟩
  · rw [List.pairwise_append]
    refine ⟨pairwise_of_mem_rel M (fun a ha b hb x y hx hy => ?_), hC,
      fun a ha b hb x y hx hy => ?_⟩
    · rw [hM a ha] at hx
      cases hx
    · rw [hM a ha] at hx
      cases hx
  · intro a ha b hb
    rcases List.mem_append.mp hb with hb | hb
    · intro x y hx hy
      rw [hM b hb] at hy
      cases hy
    · exact hAC a ha b hb

/-- Every pair selected into `boot_images_` has BootCritical type. -/
theorem collectImages_boot_types (sov ss : String) (skip : Bool) :
    ∀ p ∈ (collectImages sov ss skip).1, p.1.type = ImageType.BootCritical := by
  intro p hp
  simp only [collectImages, List.mem_filterMap] at hp
  obtain ⟨im, _, him⟩ := hp
  by_cases h1 : im.IsSecondary = true ∧ skip = true
  · rw [if_pos h1] at him
    cases him
  · rw [if_neg h1] at him
    by_cases h2 : im.type = ImageType.BootCritical
    · rw [if_pos h2] at him
      injection him with he
      rw [← he]
      exact h2
    · rw [if_neg h2] at him
      cases him

/-- Every pair selected into `os_images_` has Normal type. -/
theorem collectImages_os_types (sov ss : String) (skip : Bool) :
    ∀ p ∈ (collectImages sov ss skip).2, p.1.type = ImageType.Normal := by
  intro p hp
  simp only [collectImages, List.mem_filterMap] at hp
  obtain ⟨im, _, him⟩ := hp
  by_cases h1 : im.IsSecondary = true ∧ skip = true
  · rw [if_pos h1] at him
    cases him
  · rw [if_neg h1] at him
    by_cases h2 : im.type = ImageType.Normal
    · rw [if_pos h2] at him
      injection him with he
      rw [← he]
      exact h2
    · rw [if_neg h2] at him
      cases him

/-- Each task `AddFlashTasks` produces is a flash task carrying the catalog
type shared by its input pairs. -/
theorem addFlashTasks_types (present : Image → Bool) (ty : ImageType) :
    ∀ pairs : List (Image × String), (∀ p ∈ pairs, p.1.type = ty) →
    ∀ l, addFlashTasks present pairs = some l →
    ∀ t ∈ l, ∃ s pt i v, t = Task.flash s pt i v (some ty) := by
  intro pairs
  induction pairs with
  | nil =>
    intro _ l h t ht
    simp only [addFlashTasks, Option.some.injEq] at h
    subst h
    cases ht
  | cons hd tl ih =>
    intro hty l h t ht
    obtain ⟨im, slot⟩ := hd
    simp only [addFlashTasks] at h
    by_cases hp : present im = true
    · rw [if_pos hp] at h
      cases hrec : addFlashTasks present tl with
      | none =>
        rw [hrec] at h
        cases h
      | some l' =>
        rw [hrec] at h
        simp only [Option.map_some', Option.some.injEq] at h
        subst h
        rcases List.mem_cons.mp ht with rfl | ht'
        · refine ⟨slot, im.part_name, im.img_name,
            is_vbmeta_partition im.part_name, ?_⟩
          rw [hty (im, slot) (List.mem_cons_self _ _)]
        · exact ih (fun p hp' => hty p (List.mem_cons_of_mem _ hp')) l' hrec t ht'
    · rw [if_neg hp] at h
      by_cases ho : im.optional_if_no_image = true
      · rw [if_pos ho] at h
        exact ih (fun p hp' => hty p (List.mem_cons_of_mem _ hp')) l h t ht
      · rw [if_neg ho] at h
        cases h

/-- The task list built by the catalog strategy is rank-ordered. -/
theorem collectTasks_pairwise (sov ss : String) (skip : Bool)
    (present : Image → Bool) (opt se : Bool) (isDyn : String → String → Bool)
    (ts : List Task)
    (h : collectTasksFromImageList sov ss skip present opt se isDyn = some ts) :
    List.Pairwise RankLE ts := by
  unfold collectTasksFromImageList at h
  cases hb : addFlashTasks present (collectImages sov ss skip).1 with
  | none =>
    rw [hb] at h
    cases h
  | some boot_tasks =>
    cases ho : addFlashTasks present (collectImages sov ss skip).2 with
    | none =>
      rw [hb, ho] at h
      cases h
    | some os_tasks =>
      rw [hb, ho] at h
      simp only [Option.some.injEq] at h
      subst h
      have hbt : ∀ t ∈ boot_tasks, rank t = some 0 := by
        intro t ht
        obtain ⟨s, p, i, v, rfl⟩ := addFlashTasks_types present .BootCritical _
          (collectImages_boot_types sov ss skip) _ hb t ht
        rfl
      have host : ∀ t ∈ os_tasks, rank t = some 2 := by
        intro t ht
        obtain ⟨s, p, i, v, rfl⟩ := addFlashTasks_types present .Normal _
          (collectImages_os_types sov ss skip) _ ho t ht
        rfl
      have base : List.Pairwise RankLE
          (boot_tasks ++ [Task.updateSuper] ++ os_tasks) := by
        rw [List.pairwise_append]
        refine ⟨?_, ?_, ?_⟩
        · rw [List.pairwise_append]
          refine ⟨pairwise_of_mem_rel _ (fun a ha b hb' x y hx hy => ?_),
            List.pairwise_singleton _ _, fun a ha b hb' x y hx hy => ?_⟩
          · rw [hbt a ha] at hx
            rw [hbt b hb'] at hy
            injection hx with hx
            injection hy with hy
            omega
          · rw [hbt a ha] at hx
            rw [List.mem_singleton.mp hb'] at hy
            injection hx with hx
            injection hy with hy
            omega
        · exact pairwise_of_mem_rel _ (fun a ha b hb' x y hx hy => by
            rw [host a ha] at hx
            rw [host b hb'] at hy
            injection hx with hx
            injection hy with hy
            omega)
        · intro a ha b hb' x y hx hy
          rw [host b hb'] at hy
          injection hy with hy
          rcases List.mem_append.mp ha with ha' | ha'
          · rw [hbt a ha'] at hx
            injection hx with hx
            omega
          · rw [List.mem_singleton.mp ha'] at hx
            injection hx with hx
            omega
      unfold postprocessTasks optimizedFlashSuperInit
      by_cases hopt : opt = true
      · rw [if_pos hopt]
        rw [List.pairwise_append]
        refine ⟨base, List.pairwise_singleton _ _,
          fun a ha b hb' x y hx hy => ?_⟩
        rw [List.mem_singleton.mp hb'] at hy
        cases hy
      · rw [if_neg hopt]
        unfold addResizeTasks
        by_cases hse : se = false
        · rw [if_pos hse]
          exact base
        · rw [if_neg hse]
          cases hidx : (boot_tasks ++ [Task.updateSuper] ++ os_tasks).findIdx?
              (isDynamicFlash isDyn) with
          | none => exact base
          | some loc =>
            refine pairwise_rankle_insert _ _ _ ?_ ?_
            · rw [List.take_append_drop]
              exact base
            · intro m hm
              simp only [List.mem_filterMap] at hm
              obtain ⟨t', _, ht'⟩ := hm
              cases t' with
              | flash s p i v st =>
                dsimp only at ht'
                split_ifs at ht'
                injection ht' with ht'
                rw [← ht']
                rfl
              | updateSuper => cases ht'
              | optimizedFlashSuper => cases ht'
              | resize a b c => cases ht'
              | reboot tgt => cases ht'
              | wipe p => cases ht'

/-- Whether a task is a flash task created from a catalog image of type
`ty`. -/
def isFlashOfType (t : Task) (ty : ImageType) : Prop :=
  ∃ s p i v, t = Task.flash s p i v (some ty)

/-- C1: in the catalog strategy, for any subset of images present, every task
flashing a BootCritical-type image precedes the `UpdateSuper` task, and the
`UpdateSuper` task precedes every task flashing a Normal-type image. -/
theorem collectTasksFromImageList_ordering (sov ss : String) (skip : Bool)
    (present : Image → Bool) (opt se : Bool) (isDyn : String → String → Bool)
    (ts : List Task)
    (h : collectTasksFromImageList sov ss skip present opt se isDyn = some ts)
    (i j : Nat) (hi : i < ts.length) (hj : j < ts.length) :
    (isFlashOfType (ts.get ⟨i, hi⟩) .BootCritical →
      ts.get ⟨j, hj⟩ = Task.updateSuper → i < j) ∧
    (ts.get ⟨i, hi⟩ = Task.updateSuper →
      isFlashOfType (ts.get ⟨j, hj⟩) .Normal → i < j) := by
  have hp := collectTasks_pairwise sov ss skip present opt se isDyn ts h
  rw [List.pairwise_iff_get] at hp
  constructor
  · rintro ⟨s, p, im, v, hflash⟩ hus
    by_contra hij
    have hne : i ≠ j := by
      intro he
      subst he
      rw [hus] at hflash
      cases hflash
    have hji : (⟨j, hj⟩ : Fin ts.length) < ⟨i, hi⟩ := by
      rw [Fin.mk_lt_mk]
      omega
    have hr := hp ⟨j, hj⟩ ⟨i, hi⟩ hji 1 0 (by rw [hus]; rfl) (by rw [hflash]; rfl)
    omega
  · rintro hus ⟨s, p, im, v, hflash⟩
    by_contra hij
    have hne : i ≠ j := by
      intro he
      subst he
      rw [hus] at hflash
      cases hflash
    have hji : (⟨j, hj⟩ : Fin ts.length) < ⟨i, hi⟩ := by
      rw [Fin.mk_lt_mk]
      omega
    have hr := hp ⟨j, hj⟩ ⟨i, hi⟩ hji 2 1 (by rw [hflash]; rfl) (by rw [hus]; rfl)
    omega

/-- C1 witness: all images present, secondary slot skipped, slot "a", no
super optimization and no `super_empty.img`: the boot flash at index 0
precedes `UpdateSuper` at index 11, which precedes the Normal flash at
index 12. -/
theorem collectTasksFromImageList_ordering_witness :
    (0 : Nat) < 11 ∧ (11 : Nat) < 12 := by
  have h := collectTasksFromImageList_ordering "a" "" true (fun _ => true)
    false false (fun _ _ => false)
    [Task.flash "a" "boot" "boot.img" false (some .BootCritical),
     Task.flash "a" "init_boot" "init_boot.img" false (some .BootCritical),
     Task.flash "a" "dtbo" "dtbo.img" false (some .BootCritical),
     Task.flash "a" "dts" "dt.img" false (some .BootCritical),
     Task.flash "a" "pvmfw" "pvmfw.img" false (some .BootCritical),
     Task.flash "a" "recovery" "recovery.img" false (some .BootCritical),
     Task.flash "a" "vbmeta" "vbmeta.img" true (some .BootCritical),
     Task.flash "a" "vbmeta_system" "vbmeta_system.img" false (some .BootCritical),
     Task.flash "a" "vbmeta_vendor" "vbmeta_vendor.img" false (some .BootCritical),
     Task.flash "a" "vendor_boot" "vendor_boot.img" false (some .BootCritical),
     Task.flash "a" "vendor_kernel_boot" "vendor_kernel_boot.img" false
       (some .BootCritical),
     Task.updateSuper,
     Task.flash "a" "odm" "odm.img" false (some .Normal),
     Task.flash "a" "odm_dlkm" "odm_dlkm.img" false (some .Normal),
     Task.flash "a" "product" "product.img" false (some .Normal),
     Task.flash "a" "system" "system.img" false (some .Normal),
     Task.flash "a" "system_dlkm" "system_dlkm.img" false (some .Normal),
     Task.flash "a" "system_ext" "system_ext.img" false (some .Normal),
     Task.flash "a" "vendor" "vendor.img" false (some .Normal),
     Task.flash "a" "vendor_dlkm" "vendor_dlkm.img" false (some .Normal)] rfl
  exact ⟨(h 0 11 (by decide) (by decide)).1 ⟨"a", "boot", "boot.img", false, rfl⟩ rfl,
    (h 11 12 (by decide) (by decide)).2 rfl ⟨"a", "odm", "odm.img", false, rfl⟩⟩

/-! ## Claim theorems for the fastboot-info interpreter -/

/-- The per-line loop aborts as soon as any line's verdict does. -/
theorem parseFastbootInfoLoop_abort (wants_wipe : Bool) (sov ss : String)
    (l : String) (hv : lineVerdict wants_wipe sov ss l = none) :
    ∀ file : List String, l ∈ file →
      parseFastbootInfoLoop wants_wipe sov ss file = none := by
  intro file
  induction file with
  | nil =>
    intro hl
    cases hl
  | cons x xs ih =>
    intro hl
    unfold parseFastbootInfoLoop
    rcases List.mem_cons.mp hl with rfl | hl'
    · rw [hv]
    · rw [ih hl']
      cases hx : lineVerdict wants_wipe sov ss x with
      | none => rfl
      | some o => cases o <;> rfl

/-- C2: a fastboot-info script containing a line the interpreter rejects
(an unrecognized directive, a malformed line, or a version line exceeding the
host tool's `FASTBOOT_INFO_VERSION` — exactly the lines whose `lineVerdict`
is `none`) makes `ParseFastbootInfo` fail closed: it produces the empty task
list, so no part of the script is turned into tasks. -/
theorem parseFastbootInfo_fail_closed (wants_wipe : Bool) (sov ss : String)
    (optS seOk : Bool) (isDyn : String → String → Bool) (file : List String)
    (h : ∃ l ∈ file, lineVerdict wants_wipe sov ss l = none) :
    parseFastbootInfo wants_wipe sov ss optS seOk isDyn file = [] := by
  obtain ⟨l, hl, hv⟩ := h
  unfold parseFastbootInfo
  rw [parseFastbootInfoLoop_abort wants_wipe sov ss l hv file hl]

/-- C2 witness: a script whose first line requires version 99 (> 1) aborts
even though its second line is well-formed. -/
theorem parseFastbootInfo_fail_closed_witness :
    parseFastbootInfo false "a" "b" true true (fun _ _ => false)
      ["version 99", "flash boot"] = [] :=
  parseFastbootInfo_fail_closed false "a" "b" true true (fun _ _ => false)
    ["version 99", "flash boot"]
    ⟨"version 99", List.mem_cons_self _ _, rfl⟩

/-- C4: for the script `"version 1\x5cnflash boot\x5cnif-wipe erase
userdata\x5cn"` (in an environment without `super_empty.img` and with the
super optimization unavailable), `wants_wipe = false` yields exactly
`[Flash(boot)]` and `wants_wipe = true` yields exactly
`[Flash(boot), Wipe(userdata)]`: if-wipe lines are included only when
`wants_wipe` is set and dropped otherwise. -/
theorem parseFastbootInfo_wipe_scenario (sov ss : String)
    (isDyn : String → String → Bool) :
    parseFastbootInfo false sov ss false false isDyn
        (splitLines "version 1\nflash boot\nif-wipe erase userdata\n")
      = [Task.flash sov "boot" "boot.img" false none] ∧
    parseFastbootInfo true sov ss false false isDyn
        (splitLines "version 1\nflash boot\nif-wipe erase userdata\n")
      = [Task.flash sov "boot" "boot.img" false none, Task.wipe "userdata"] :=
  ⟨rfl, rfl⟩

end Fastboot
